import Mathlib

set_option autoImplicit false

/-
Verification of the task-manager test-automation framework.

The definitions below are a shallow embedding of the TypeScript sources:
* services/TaskService.ts        (task data model, validation oracle, generators)
* utils/WaitHelper.ts            (pollUntil, waitWithBackoff)
* services/TestDataService.ts    (getStoredTasks, resetState)
* pages/TaskManagerPage.ts       (title-based locator resolution, edit form)

JavaScript strings are modelled as Lean `String`; optional / possibly
`undefined` fields as `Option`; enum-typed fields as plain strings because
the runtime can carry values outside the TS type (`createInvalidTask` casts
with `as any`).  Asynchronous functions that can reject are modelled as
`Except`-valued functions.
-/

namespace TaskQA

/-- Whitespace recognised by the model of JavaScript `String.prototype.trim`
(space, tab, newline, carriage return, vertical tab, form feed).  The real
JS set also has exotic Unicode spaces; all of them compare below 'A', which
is the only fact the proofs use. -/
def isJsSpace (c : Char) : Bool :=
  c == ' ' || c == '\t' || c == '\n' || c == '\r' || c == '\x0b' || c == '\x0c'

/-- Model of JavaScript `s.trim()`: drop leading and trailing whitespace. -/
def jsTrim (s : String) : String :=
  String.mk (((s.data.dropWhile isJsSpace).reverse.dropWhile isJsSpace).reverse)

/-- Model of the regex test `/^[A-Z]/.test(s)`: the first character exists
and is an ASCII uppercase letter. -/
def startsUpperAZ (s : String) : Bool :=
  match s.data with
  | [] => false
  | c :: _ => decide ('A' ≤ c) && decide (c ≤ 'Z')

/-- JavaScript truthiness of a `string | undefined` value: falsy iff the
value is `undefined` or the empty string. -/
def jsFalsyStr : Option String → Bool
  | none => true
  | some s => s == ""

/-- Embeds `interface Task` of TaskManagerPage.ts: `title` required,
`description`, `importance`, `label`, `completed` optional. -/
structure Task where
  title : String
  description : Option String := none
  importance : Option String := none
  label : Option String := none
  completed : Option Bool := none
deriving Repr, DecidableEq

/-- The importance value pool `['High', 'Medium', 'Low']` declared in
`validateTask` and `generateAllCombinations`. -/
def importanceValues : List String := ["High", "Medium", "Low"]

/-- The label value pool `['Work', 'Social', 'Home', 'Hobby']` declared in
`validateTask` and `generateAllCombinations`. -/
def labelValues : List String := ["Work", "Social", "Home", "Hobby"]

/-- Embeds the return type of `TaskService.validateTask`:
`{ valid: boolean; errors: string[] }`. -/
structure ValidationResult where
  valid : Bool
  errors : List String
deriving Repr, DecidableEq

/-- The `errors` array built by `TaskService.validateTask`, with the five
`errors.push` sites in source order.  Guards are translated literally:
`!task.title` and `!task.importance` are JS falsiness (`jsFalsyStr`),
`['High','Medium','Low'].includes(x)` is `List.contains`. -/
def taskErrors (task : Task) : List String :=
  (if task.title == "" || jsTrim task.title == "" then ["Title is required"] else []) ++
  (if task.title != "" && !startsUpperAZ task.title then
    ["Title should start with a capital letter"] else []) ++
  (if jsFalsyStr task.importance then ["Importance is required"] else []) ++
  (if !jsFalsyStr task.importance
      && !importanceValues.contains (task.importance.getD "") then
    ["Invalid importance value"] else []) ++
  (if !jsFalsyStr task.label && !labelValues.contains (task.label.getD "") then
    ["Invalid label value"] else [])

/-- Embeds `TaskService.validateTask`: returns
`{ valid: errors.length === 0, errors }`.  The source never writes to its
argument, so the embedding is a pure function of `task`. -/
def validateTask (task : Task) : ValidationResult :=
  { valid := (taskErrors task).length == 0, errors := taskErrors task }

/-- Embeds `Partial<Task>`: every field optional, `none` meaning the key is
absent from the overrides object. -/
structure PartialTask where
  title : Option String := none
  description : Option String := none
  importance : Option String := none
  label : Option String := none
  completed : Option Bool := none
deriving Repr, DecidableEq

/-- Embeds `TaskService.createValidTask`: the spread
`{ title: 'Test Task', description: 'Test description', importance:
'Medium', label: 'Work', completed: false, ...overrides }` — each field is
the override when its key is present, the fixed default otherwise. -/
def createValidTask (overrides : PartialTask) : Task :=
  { title := overrides.title.getD "Test Task"
  , description := some (overrides.description.getD "Test description")
  , importance := some (overrides.importance.getD "Medium")
  , label := some (overrides.label.getD "Work")
  , completed := some (overrides.completed.getD false) }

/-- The template literal
`Task ${importance} ${label} ${completed ? 'Done' : 'Pending'}` used by
`generateAllCombinations` for titles. -/
def combTitle (importance label : String) (completed : Bool) : String :=
  "Task " ++ importance ++ " " ++ label ++ " " ++
    (if completed then "Done" else "Pending")

/-- The template literal for descriptions in `generateAllCombinations`. -/
def combDescription (importance label : String) (completed : Bool) : String :=
  "Task with " ++ importance ++ " importance, " ++ label ++ " label, " ++
    (if completed then "completed" else "pending")

/-- The `completedStates` array `[true, false]` of
`generateAllCombinations`. -/
def completedStates : List Bool := [true, false]

/-- Embeds `TaskService.generateAllCombinations`: three nested `forEach`
loops pushing one record per (importance, label, completed) triple, in
source order.  The function reads no mutable state, so (matching the
"deterministic" part of the claim) every call returns the same list. -/
def generateAllCombinations : List Task :=
  importanceValues.flatMap (fun importance =>
    labelValues.flatMap (fun label =>
      completedStates.map (fun completed =>
        { title := combTitle importance label completed
        , description := some (combDescription importance label completed)
        , importance := some importance
        , label := some label
        , completed := some completed })))

/-- The (importance, label, completed) triple of a generated record. -/
def combTriple (t : Task) : Option String × Option String × Option Bool :=
  (t.importance, t.label, t.completed)

/-- Check that a record's title is exactly the encoding of its own triple. -/
def titleEncodesTriple (t : Task) : Bool :=
  match t.importance, t.label, t.completed with
  | some i, some l, some c => t.title == combTitle i l c
  | _, _, _ => false

/-
WaitHelper.ts.  An asynchronous predicate is modelled as a function from
the invocation index (0-based) to `Except E Bool`: `Except.error e` is a
rejected promise, `Except.ok b` a resolved boolean.  Wall-clock time is
idealized: a condition check and the loop bookkeeping take no time, so the
k-th check of `pollUntil` happens at elapsed time `k * intervalMs`.
-/

/-- Number of loop iterations of `WaitHelper.pollUntil`: the `while` guard
`Date.now() - startTime < timeoutMs` is tested at elapsed times
`0, intervalMs, 2 * intervalMs, ...`, so the body runs
`⌈timeoutMs / intervalMs⌉` times.  (For `intervalMs = 0` the real loop is
paced by execution time, which the idealized clock cannot express; this
model then performs no checks, which does not affect the verified
conclusions — no failure propagates and the result is `ok false`.) -/
def pollChecks (timeoutMs intervalMs : Nat) : Nat :=
  (timeoutMs + intervalMs - 1) / intervalMs

/-- Loop body of `WaitHelper.pollUntil`.  The `try`/`catch` of the source
is translated literally: `ok true` returns `true`, while `ok false` and
`error _` both fall through to `await this.wait(intervalMs)` and the next
iteration (the `catch` block is empty: "Continue polling even if condition
throws an error"). -/
def pollLoop {E : Type} (condition : Nat → Except E Bool) : Nat → Nat → Except E Bool
  | _, 0 => Except.ok false
  | i, fuel + 1 =>
    match condition i with
    | Except.ok true => Except.ok true
    | Except.ok false => pollLoop condition (i + 1) fuel
    | Except.error _ => pollLoop condition (i + 1) fuel

/-- Embeds `WaitHelper.pollUntil(condition, timeoutMs = 10000,
intervalMs = 500)`. -/
def pollUntil {E : Type} (condition : Nat → Except E Bool)
    (timeoutMs intervalMs : Nat) : Except E Bool :=
  pollLoop condition 0 (pollChecks timeoutMs intervalMs)

/-- Observable outcome of a `waitWithBackoff` call: the returned (or
thrown) value, how many times `action` was invoked, and the total
milliseconds spent in `await this.wait(delay)`. -/
structure BackoffOutcome (E : Type) where
  result : Except E Bool
  attemptsMade : Nat
  totalWaitMs : Nat
deriving Repr

/-- Loop of `WaitHelper.waitWithBackoff`, in state-passing form.  The
arguments mirror the source's loop state: current `delay`, current
`attempt` index, attempts `remaining` (`maxAttempts - attempt`),
accumulated wait and invocation counts.  `await action()` is outside any
`try`, so a raised failure ends the call at once; after a `false` result
the source waits and doubles the delay only when
`attempt < maxAttempts - 1` (i.e. `remaining > 1`). -/
def backoffGo {E : Type} (action : Nat → Except E Bool) :
    Nat → Nat → Nat → Nat → Nat → BackoffOutcome E
  | 0, _, _, waited, made => ⟨Except.ok false, made, waited⟩
  | remaining + 1, delay, attempt, waited, made =>
    match action attempt with
    | Except.error e => ⟨Except.error e, made + 1, waited⟩
    | Except.ok true => ⟨Except.ok true, made + 1, waited⟩
    | Except.ok false =>
      match remaining with
      | 0 => ⟨Except.ok false, made + 1, waited⟩
      | _ + 1 =>
        backoffGo action remaining (delay * 2) (attempt + 1) (waited + delay) (made + 1)

/-- Embeds `WaitHelper.waitWithBackoff(action, maxAttempts = 5,
initialDelay = 1000)`. -/
def waitWithBackoff {E : Type} (action : Nat → Except E Bool)
    (maxAttempts initialDelay : Nat) : BackoffOutcome E :=
  backoffGo action maxAttempts initialDelay 0 0 0

/-
TestDataService.ts.  Web Storage is a string-keyed string store; `evaluate`
runs in the page and rejects iff the evaluated function throws, so
`getStoredTasks` is `Except`-valued.  `JSON.parse` is an external builtin;
it is passed in as a `parse` parameter about which the theorems assume only
what the claims need.  (Fact used by the C7 counterexample, documented at
`failingParse`: `JSON.parse("")` throws a SyntaxError, i.e. any faithful
`parse` fails on the empty string.)
-/

/-- A Web Storage area: `getItem` returns the stored string or `null`. -/
def Storage : Type := String → Option String

/-- `localStorage.getItem(key)`. -/
def storageGetItem (s : Storage) (key : String) : Option String := s key

/-- `localStorage.clear()` / `sessionStorage.clear()`: every key absent. -/
def storageClear : Storage := fun _ => none

/-- The browser storage reachable from one test's page. -/
structure AppStorageState where
  localStore : Storage
  sessionStore : Storage

/-- Embeds the body evaluated by `TestDataService.getStoredTasks`:
`const stored = localStorage.getItem('tasks'); return stored ?
JSON.parse(stored) : []`.  JS truthiness makes both `null` (key absent) and
the empty string take the `[]` branch; only a non-empty string reaches
`JSON.parse`. -/
def getStoredTasksRaw {E : Type} (parse : String → Except E (List Task))
    (stored : Option String) : Except E (List Task) :=
  match stored with
  | none => Except.ok []
  | some s => if s == "" then Except.ok [] else parse s

/-- `TestDataService.getStoredTasks` reading the "tasks" key of the page's
local storage. -/
def getStoredTasks {E : Type} (parse : String → Except E (List Task))
    (st : AppStorageState) : Except E (List Task) :=
  getStoredTasksRaw parse (storageGetItem st.localStore "tasks")

/-- Modelled from the spec: the application under test (not part of the
framework sources) is reloaded by `page.reload()`; per §4.5 the reload with
cleared storage returns the app "to its initial, empty state", writing
nothing to the persisted store by itself. -/
def appReload (st : AppStorageState) : AppStorageState := st

/-- Embeds `TestDataService.resetState`: `localStorage.clear();
sessionStorage.clear();` inside `evaluate`, then `page.reload()`. -/
def resetState (_st : AppStorageState) : AppStorageState :=
  appReload { localStore := storageClear, sessionStore := storageClear }

/-
TaskManagerPage.ts (pages layer).  A rendered task card is the
`.task-item` element: an `h3` with the title plus its buttons.  A Playwright
locator is modelled by the list of indices of the cards it resolves to;
`Locator` actions such as `click()` are strict — they raise a strict-mode
violation when the locator resolves to more than one element, and time out
(raising) when it resolves to none.
-/

/-- A displayed task card with its rendered field values. -/
structure TaskCard where
  title : String
  description : String
  importance : String
  label : String
  completed : Bool
deriving Repr, DecidableEq

/-- Case-folding used by Playwright text matching. -/
def lowerChars (l : List Char) : List Char := l.map Char.toLower

/-- Whether `pat` occurs as a leading run of `l`. -/
def leadChars : List Char → List Char → Bool
  | [], _ => true
  | _ :: _, [] => false
  | p :: ps, c :: cs => p == c && leadChars ps cs

/-- Whether `pat` occurs contiguously anywhere inside `l`. -/
def subChars (pat : List Char) : List Char → Bool
  | [] => leadChars pat []
  | c :: cs => leadChars pat (c :: cs) || subChars pat cs

/-- Playwright `:has-text("needle")` on an element whose rendered text is
`text`: case-insensitive substring match. -/
def hasText (text needle : String) : Bool :=
  subChars (lowerChars needle.data) (lowerChars text.data)

/-- Embeds `TaskManagerPage.getTaskByTitle`: the locator
`.task-item:has(h3:has-text("taskTitle"))` resolves to every displayed card
whose title text matches; the result is the list of matching card indices
in display order.  No `.first()` is applied in the source. -/
def resolveTaskByTitle (cards : List TaskCard) (taskTitle : String) : List Nat :=
  (List.range cards.length).filter fun i =>
    match cards[i]? with
    | some c => hasText c.title taskTitle
    | none => false

/-- Result of clicking a button located inside `getTaskByTitle`'s locator. -/
inductive ClickOutcome
  | acted (cardIndex : Nat)
  | strictModeViolation (matchCount : Nat)
  | timedOut
deriving Repr, DecidableEq

/-- Embeds the shared interaction of `TaskManagerPage.deleteTask`,
`clickEditTask` and `toggleTaskCompletion`: chain a per-card button locator
(`button:has-text("Delete")`, `button:has-text("Edit")`, or the
Complete/Uncomplete filter — each card has exactly one such button) onto
`getTaskByTitle` and `click()` it.  The chained locator resolves to one
button per matching card, and the strict `click` acts only when that is a
single element. -/
def clickCardButton (cards : List TaskCard) (taskTitle : String) : ClickOutcome :=
  match resolveTaskByTitle cards taskTitle with
  | [] => ClickOutcome.timedOut
  | [i] => ClickOutcome.acted i
  | l => ClickOutcome.strictModeViolation l.length

/-- The inline edit form's four controls (text input, textarea, two
selects), each holding a current value. -/
structure EditFormState where
  titleField : String
  descriptionField : String
  importanceField : String
  labelField : String
deriving Repr, DecidableEq

/-- Embeds `TaskManagerPage.fillEditForm`: `title` and `description` are
written when the key is present (`!== undefined`, so an empty string is
written too); `importance` and `label` are guarded by JS truthiness, so an
empty string is skipped like an absent key.  Untouched controls keep their
current value. -/
def fillEditForm (form : EditFormState) (task : PartialTask) : EditFormState :=
  { titleField :=
      match task.title with
      | some s => s
      | none => form.titleField
  , descriptionField :=
      match task.description with
      | some s => s
      | none => form.descriptionField
  , importanceField :=
      match task.importance with
      | some s => if s == "" then form.importanceField else s
      | none => form.importanceField
  , labelField :=
      match task.label with
      | some s => if s == "" then form.labelField else s
      | none => form.labelField }

/-- Modelled from the spec: opening the inline edit form of the application
under test (not part of the framework sources) initializes its controls
with the card's current rendered values — §4.3, `editTask` "opens its
inline edit form, overwrites only the fields present in newTask, saves". -/
def openEditForm (card : TaskCard) : EditFormState :=
  ⟨card.title, card.description, card.importance, card.label⟩

/-- Modelled from the spec: saving the inline edit form of the application
under test applies the form's four control values to the card; the
completion flag is not part of the form. -/
def saveEditForm (card : TaskCard) (form : EditFormState) : TaskCard :=
  { card with
    title := form.titleField
    description := form.descriptionField
    importance := form.importanceField
    label := form.labelField }

/-- Embeds `TaskManagerPage.editTask(oldTitle, newTask)` acting on the
located card: open the edit form, `fillEditForm(newTask)`, save. -/
def editTaskOnCard (card : TaskCard) (newTask : PartialTask) : TaskCard :=
  saveEditForm card (fillEditForm (openEditForm card) newTask)

/-- The validity predicate exactly as claim C1 words it (the spec side of
the refinement, for comparison with `validateTask`): title non-empty with
an uppercase first letter, importance absent or an enumerated value, label
absent or an enumerated value. -/
def specValidC1 (t : Task) : Bool :=
  (t.title != "" && startsUpperAZ t.title) &&
  (match t.importance with
   | none => true
   | some s => importanceValues.contains s) &&
  (match t.label with
   | none => true
   | some s => labelValues.contains s)

/-- A task with a valid title and no importance or label keys: the point
where `validateTask` and claim C1 disagree. -/
def c1Task : Task := { title := "Valid Title" }

/-- A stand-in for `JSON.parse` specialized to the task array: the sole
fact the C7 analysis needs about the real builtin is that it raises on
malformed input, and the empty string is malformed (not a JSON document),
so a parser failing on each input is a legitimate instance. -/
def failingParse : String → Except Nat (List Task) := fun _ => Except.error 0

/-- First of two displayed cards sharing the title "Task A". -/
def cardA1 : TaskCard := ⟨"Task A", "First copy", "High", "Work", false⟩

/-- Second of two displayed cards sharing the title "Task A". -/
def cardA2 : TaskCard := ⟨"Task A", "Second copy", "Low", "Home", false⟩

/-- A single displayed card with a unique title. -/
def cardB : TaskCard := ⟨"Task B", "Only copy", "Medium", "Work", true⟩

/-
Theorems.  Each claim Ci of the specification audit is settled by the
theorem(s) carrying `ci` in their name; the remaining theorems are shared
helper lemmas.
-/

theorem ite_singleton_eq_nil {α : Type} (c : Bool) (x : α) :
    ((if c = true then [x] else []) = []) ↔ c = false := by
  cases c <;> simp

theorem isJsSpace_false_of_AZ {c : Char} (h : 'A' ≤ c) : isJsSpace c = false := by
  have hlt : ∀ d : Char, d < 'A' → (c == d) = false := by
    intro d hd
    rw [beq_eq_false_iff_ne]
    intro hc
    subst hc
    exact absurd (lt_of_le_of_lt h hd) (lt_irrefl _)
  unfold isJsSpace
  rw [hlt ' ' (by decide), hlt '\t' (by decide), hlt '\n' (by decide),
    hlt '\r' (by decide), hlt '\x0b' (by decide), hlt '\x0c' (by decide)]
  rfl

theorem startsUpperAZ_spec {s : String} (h : startsUpperAZ s = true) :
    ∃ c cs, s.data = c :: cs ∧ 'A' ≤ c ∧ c ≤ 'Z' := by
  unfold startsUpperAZ at h
  match hs : s.data with
  | [] => rw [hs] at h; exact absurd h (by simp)
  | c :: cs =>
    rw [hs] at h
    simp only [Bool.and_eq_true, decide_eq_true_eq] at h
    exact ⟨c, cs, rfl, h.1, h.2⟩

theorem title_ne_empty_of_upper {s : String} (h : startsUpperAZ s = true) : s ≠ "" := by
  obtain ⟨c, cs, hdata, _, _⟩ := startsUpperAZ_spec h
  intro he
  rw [he] at hdata
  exact absurd hdata (by simp)

theorem jsTrim_ne_empty_of_upper {s : String} (h : startsUpperAZ s = true) :
    jsTrim s ≠ "" := by
  obtain ⟨c, cs, hdata, hA, _⟩ := startsUpperAZ_spec h
  have hcsp : isJsSpace c = false := isJsSpace_false_of_AZ hA
  unfold jsTrim
  rw [hdata, List.dropWhile_cons_of_neg (by simp [hcsp])]
  intro he
  have hld : ((c :: cs).reverse.dropWhile isJsSpace).reverse = [] := by
    have := congrArg String.data he
    simpa using this
  rw [List.reverse_eq_nil_iff, List.dropWhile_eq_nil_iff] at hld
  have hc := hld c (by simp)
  rw [hcsp] at hc
  exact absurd hc (by simp)

theorem taskErrors_eq_nil (t : Task) :
    taskErrors t = [] ↔
      ((t.title == "" || jsTrim t.title == "") = false ∧
       (t.title != "" && !startsUpperAZ t.title) = false ∧
       jsFalsyStr t.importance = false ∧
       (!jsFalsyStr t.importance
          && !importanceValues.contains (t.importance.getD "")) = false ∧
       (!jsFalsyStr t.label && !labelValues.contains (t.label.getD "")) = false) := by
  unfold taskErrors
  simp only [List.append_eq_nil, ite_singleton_eq_nil]
  tauto

theorem titleConds_iff (title : String) :
    ((title == "" || jsTrim title == "") = false ∧
     (title != "" && !startsUpperAZ title) = false) ↔
    startsUpperAZ title = true := by
  constructor
  · rintro ⟨h1, h2⟩
    rw [Bool.or_eq_false_iff] at h1
    rcases Bool.and_eq_false_iff.mp h2 with hc | hd
    · exfalso
      rw [bne, Bool.not_eq_false'] at hc
      rw [hc] at h1
      simp at h1
    · rwa [Bool.not_eq_false'] at hd
  · intro hu
    have h1a : (title == "") = false :=
      beq_eq_false_iff_ne.mpr (title_ne_empty_of_upper hu)
    have h1b : (jsTrim title == "") = false :=
      beq_eq_false_iff_ne.mpr (jsTrim_ne_empty_of_upper hu)
    rw [h1a, h1b, hu]
    simp

theorem requiredEnum_iff (o : Option String) (values : List String) :
    (jsFalsyStr o = false ∧ (!jsFalsyStr o && !values.contains (o.getD "")) = false) ↔
    ∃ s, o = some s ∧ s ∈ values ∧ s ≠ "" := by
  cases o with
  | none => simp [jsFalsyStr]
  | some s =>
    simp only [jsFalsyStr]
    by_cases hne : s = ""
    · subst hne
      simp
    · by_cases hmem : s ∈ values
      · simp [beq_eq_false_iff_ne, hne, hmem, List.elem_iff.mpr hmem]
      · simp [beq_eq_false_iff_ne, hne, hmem]

theorem optionalEnum_iff (o : Option String) (values : List String) :
    ((!jsFalsyStr o && !values.contains (o.getD "")) = false) ↔
    (o = none ∨ o = some "" ∨ ∃ s, o = some s ∧ s ∈ values) := by
  cases o with
  | none => simp [jsFalsyStr]
  | some s =>
    simp only [jsFalsyStr]
    by_cases hne : s = ""
    · subst hne
      simp
    · by_cases hmem : s ∈ values
      · simp [beq_eq_false_iff_ne, hne, hmem, List.elem_iff.mpr hmem]
      · simp [beq_eq_false_iff_ne, hne, hmem]

/-- C1 (counterexample): the claim says a task whose importance and label
keys are absent is valid whenever its title starts with an uppercase
letter; on the task `{ title: 'Valid Title' }` the claim's predicate holds
but `validateTask` reports invalid (it pushes "Importance is required"). -/
theorem validateTask_c1_counterexample :
    specValidC1 c1Task = true ∧ (validateTask c1Task).valid = false := by
  constructor <;> decide

/-- C1 (amended): `validateTask(T).valid` is true iff T's title starts
with an ASCII uppercase letter (hence is non-empty), T's importance is
present, non-empty and one of High/Medium/Low — an absent importance is
rejected, not accepted as the claim stated — and T's label is absent,
empty, or one of Work/Social/Home/Hobby; moreover the errors list is empty
exactly when valid is true.  The source function only reads its argument,
so the input is not mutated (the embedding is a pure function). -/
theorem validateTask_amended_c1 (t : Task) :
    ((validateTask t).valid = true ↔
      (startsUpperAZ t.title = true ∧
       (∃ s, t.importance = some s ∧ s ∈ importanceValues ∧ s ≠ "") ∧
       (t.label = none ∨ t.label = some "" ∨ ∃ s, t.label = some s ∧ s ∈ labelValues))) ∧
    ((validateTask t).valid = true ↔ (validateTask t).errors = []) := by
  have hval : (validateTask t).valid = true ↔ taskErrors t = [] := by
    simp [validateTask, List.length_eq_zero]
  constructor
  · rw [hval, taskErrors_eq_nil t]
    rw [show ∀ a b c d e : Prop, (a ∧ b ∧ c ∧ d ∧ e) ↔ ((a ∧ b) ∧ (c ∧ d) ∧ e) from
      fun a b c d e => by tauto]
    rw [titleConds_iff, requiredEnum_iff, optionalEnum_iff]
  · rw [hval]
    exact Iff.rfl

/-- C2: `generateAllCombinations` returns exactly 24 records, pairwise
distinct on the (importance, label, completed) triple, covering each of
the 3 × 4 × 2 triples, with every record's title the unique encoding of
its own triple (titles are pairwise distinct, so the triple is recoverable
from the title).  Determinism holds by construction: the embedding of the
source — which reads no state — is a constant list. -/
theorem generateAllCombinations_c2 :
    generateAllCombinations.length = 24 ∧
    (generateAllCombinations.map combTriple).Nodup ∧
    (importanceValues.all fun i => labelValues.all fun l => completedStates.all fun c =>
      (generateAllCombinations.map combTriple).contains (some i, some l, some c)) = true ∧
    generateAllCombinations.all titleEncodesTriple = true ∧
    (generateAllCombinations.map (fun t => t.title)).Nodup := by
  refine ⟨by decide, by decide, by decide, by decide, by decide⟩

theorem pollLoop_no_error {E : Type} (condition : Nat → Except E Bool) :
    ∀ (fuel i : Nat) (e : E), pollLoop condition i fuel ≠ Except.error e := by
  intro fuel
  induction fuel with
  | zero => intro i e; simp [pollLoop]
  | succ n ih =>
    intro i e
    cases hc : condition i with
    | ok b => cases b <;> simp [pollLoop, hc, ih]
    | error x => simp [pollLoop, hc, ih]

theorem pollLoop_all_untrue {E : Type} (condition : Nat → Except E Bool)
    (h : ∀ n, condition n ≠ Except.ok true) :
    ∀ (fuel i : Nat), pollLoop condition i fuel = Except.ok false := by
  intro fuel
  induction fuel with
  | zero => intro i; simp [pollLoop]
  | succ n ih =>
    intro i
    cases hc : condition i with
    | ok b =>
      cases b
      · simp [pollLoop, hc, ih]
      · exact absurd hc (h i)
    | error x => simp [pollLoop, hc, ih]

/-- C4: `pollUntil` never propagates a failure raised by its condition —
for every condition, timeout and interval the result is never
`Except.error` — and when no check ever yields true (in particular when the
condition raises on every invocation) it returns `ok false` once the
timeout's worth of checks is exhausted. -/
theorem pollUntil_absorbs_failures_c4 {E : Type} (condition : Nat → Except E Bool)
    (timeoutMs intervalMs : Nat) :
    (∀ e : E, pollUntil condition timeoutMs intervalMs ≠ Except.error e) ∧
    ((∀ n, condition n ≠ Except.ok true) →
      pollUntil condition timeoutMs intervalMs = Except.ok false) :=
  ⟨fun e => pollLoop_no_error condition _ 0 e,
   fun h => pollLoop_all_untrue condition h _ 0⟩

/-- C4 (witness): a condition that raises on every check, with the spec's
example budget of 5000 ms polled every 500 ms: no failure escapes and the
call returns false. -/
theorem pollUntil_absorbs_failures_c4_witness :
    pollUntil (fun _ => (Except.error 0 : Except Nat Bool)) 5000 500 ≠ Except.error 0 ∧
    pollUntil (fun _ => (Except.error 0 : Except Nat Bool)) 5000 500 = Except.ok false :=
  ⟨(pollUntil_absorbs_failures_c4 (fun _ => (Except.error 0 : Except Nat Bool)) 5000 500).1 0,
   (pollUntil_absorbs_failures_c4 (fun _ => (Except.error 0 : Except Nat Bool)) 5000 500).2
     (fun _ h => Except.noConfusion h)⟩

theorem backoffGo_allFalse {E : Type} (action : Nat → Except E Bool)
    (h : ∀ j, action j = Except.ok false) :
    ∀ (remaining delay attempt waited made : Nat),
      backoffGo action remaining delay attempt waited made =
        ⟨Except.ok false, made + remaining, waited + delay * (2 ^ (remaining - 1) - 1)⟩ := by
  intro remaining
  induction remaining with
  | zero => intro delay attempt waited made; simp [backoffGo]
  | succ r ih =>
    intro delay attempt waited made
    cases r with
    | zero => simp [backoffGo, h attempt]
    | succ s =>
      rw [backoffGo]
      rw [h attempt]
      show backoffGo action (s + 1) (delay * 2) (attempt + 1) (waited + delay) (made + 1) = _
      rw [ih (delay * 2) (attempt + 1) (waited + delay) (made + 1)]
      have h1 : 1 ≤ 2 ^ s := Nat.one_le_two_pow
      have h2 : 2 ^ (s + 1 + 1 - 1) - 1 = 2 * (2 ^ s - 1) + 1 := by
        rw [Nat.add_sub_cancel, pow_succ]
        omega
      have h3 : 2 ^ (s + 1 - 1) - 1 = 2 ^ s - 1 := by rw [Nat.add_sub_cancel]
      congr 1
      · omega
      · rw [h2, h3]
        ring

theorem backoffGo_firstTrue {E : Type} (action : Nat → Except E Bool) :
    ∀ (k remaining delay attempt waited made : Nat),
      k < remaining →
      (∀ j, j < k → action (attempt + j) = Except.ok false) →
      action (attempt + k) = Except.ok true →
      backoffGo action remaining delay attempt waited made =
        ⟨Except.ok true, made + k + 1, waited + delay * (2 ^ k - 1)⟩ := by
  intro k
  induction k with
  | zero =>
    intro remaining delay attempt waited made hk _ htrue
    cases remaining with
    | zero => omega
    | succ r =>
      rw [show attempt + 0 = attempt from rfl] at htrue
      cases r with
      | zero => simp [backoffGo, htrue]
      | succ s => simp [backoffGo, htrue]
  | succ k ih =>
    intro remaining delay attempt waited made hk hfalse htrue
    cases remaining with
    | zero => omega
    | succ r =>
      have h0 : action attempt = Except.ok false := by
        have := hfalse 0 (Nat.succ_pos k)
        rwa [Nat.add_zero] at this
      cases r with
      | zero => omega
      | succ s =>
        rw [backoffGo]
        rw [h0]
        show backoffGo action (s + 1) (delay * 2) (attempt + 1) (waited + delay) (made + 1) = _
        rw [ih (s + 1) (delay * 2) (attempt + 1) (waited + delay) (made + 1)
          (by omega)
          (fun j hj => by
            have := hfalse (j + 1) (by omega)
            rwa [show attempt + (j + 1) = attempt + 1 + j from by omega] at this)
          (by rwa [show attempt + 1 + k = attempt + (k + 1) from by omega])]
        have h1 : 1 ≤ 2 ^ k := Nat.one_le_two_pow
        have h2 : 2 ^ (k + 1) - 1 = 2 * (2 ^ k - 1) + 1 := by
          rw [pow_succ]
          omega
        congr 1
        · omega
        · rw [h2]
          ring

theorem backoffGo_firstError {E : Type} (action : Nat → Except E Bool) (e : E) :
    ∀ (k remaining delay attempt waited made : Nat),
      k < remaining →
      (∀ j, j < k → action (attempt + j) = Except.ok false) →
      action (attempt + k) = Except.error e →
      backoffGo action remaining delay attempt waited made =
        ⟨Except.error e, made + k + 1, waited + delay * (2 ^ k - 1)⟩ := by
  intro k
  induction k with
  | zero =>
    intro remaining delay attempt waited made hk _ herr
    cases remaining with
    | zero => omega
    | succ r =>
      rw [show attempt + 0 = attempt from rfl] at herr
      cases r with
      | zero => simp [backoffGo, herr]
      | succ s => simp [backoffGo, herr]
  | succ k ih =>
    intro remaining delay attempt waited made hk hfalse herr
    cases remaining with
    | zero => omega
    | succ r =>
      have h0 : action attempt = Except.ok false := by
        have := hfalse 0 (Nat.succ_pos k)
        rwa [Nat.add_zero] at this
      cases r with
      | zero => omega
      | succ s =>
        rw [backoffGo]
        rw [h0]
        show backoffGo action (s + 1) (delay * 2) (attempt + 1) (waited + delay) (made + 1) = _
        rw [ih (s + 1) (delay * 2) (attempt + 1) (waited + delay) (made + 1)
          (by omega)
          (fun j hj => by
            have := hfalse (j + 1) (by omega)
            rwa [show attempt + (j + 1) = attempt + 1 + j from by omega] at this)
          (by rwa [show attempt + 1 + k = attempt + (k + 1) from by omega])]
        have h1 : 1 ≤ 2 ^ k := Nat.one_le_two_pow
        have h2 : 2 ^ (k + 1) - 1 = 2 * (2 ^ k - 1) + 1 := by
          rw [pow_succ]
          omega
        congr 1
        · omega
        · rw [h2]
          ring

/-- C5: `waitWithBackoff` returns true at the first attempt whose action
yields true, making no further attempts (k + 1 invocations when attempt k
is the first true one); when the action yields false on every attempt it
returns false after exactly `maxAttempts` invocations, having waited
`initialDelay`, then double the previous delay after each non-final
attempt and nothing after the final one — a total of
`initialDelay * (2 ^ (maxAttempts - 1) - 1)` ms, i.e. 1000 + 2000 = 3000 ms
for `waitWithBackoff(action, 3, 1000)` (see the witness). -/
theorem waitWithBackoff_c5 {E : Type} (action : Nat → Except E Bool) (m d k : Nat) :
    ((∀ j, j < k → action j = Except.ok false) → action k = Except.ok true → k < m →
      waitWithBackoff action m d = ⟨Except.ok true, k + 1, d * (2 ^ k - 1)⟩) ∧
    ((∀ j, action j = Except.ok false) →
      waitWithBackoff action m d = ⟨Except.ok false, m, d * (2 ^ (m - 1) - 1)⟩) := by
  constructor
  · intro hfalse htrue hk
    unfold waitWithBackoff
    rw [backoffGo_firstTrue action k m d 0 0 0 hk
      (fun j hj => by simpa using hfalse j hj)
      (by simpa using htrue)]
    simp
  · intro hfalse
    unfold waitWithBackoff
    rw [backoffGo_allFalse action hfalse m d 0 0 0]
    simp

/-- C5 (witness): with 3 attempts and a 1000 ms initial delay an
always-false action yields false after exactly 3 invocations and
1000 + 2000 = 3000 ms of waiting; an action first true at attempt index 1
stops after 2 invocations. -/
theorem waitWithBackoff_c5_witness :
    waitWithBackoff (fun _ => (Except.ok false : Except Unit Bool)) 3 1000 =
      ⟨Except.ok false, 3, 3000⟩ ∧
    waitWithBackoff (fun j => (Except.ok (j == 1) : Except Unit Bool)) 3 1000 =
      ⟨Except.ok true, 2, 1000⟩ := by
  constructor
  · rw [(waitWithBackoff_c5 (fun _ => (Except.ok false : Except Unit Bool)) 3 1000 0).2
      (fun _ => rfl)]
    simp
  · rw [(waitWithBackoff_c5 (fun j => (Except.ok (j == 1) : Except Unit Bool)) 3 1000 1).1
      (fun j hj => by
        have hj0 : j = 0 := by omega
        subst hj0
        rfl)
      rfl (by decide)]
    simp

/-- C6: `waitWithBackoff` does not absorb a raised failure — when the
action returns false for the first k attempts (false is retried) and
raises on attempt k, the failure propagates immediately: the call ends
with that error after exactly k + 1 invocations, performing none of the
remaining attempts. -/
theorem waitWithBackoff_propagates_failure_c6 {E : Type} (action : Nat → Except E Bool)
    (m d k : Nat) (e : E) (hk : k < m)
    (hfalse : ∀ j, j < k → action j = Except.ok false)
    (herr : action k = Except.error e) :
    waitWithBackoff action m d = ⟨Except.error e, k + 1, d * (2 ^ k - 1)⟩ := by
  unfold waitWithBackoff
  rw [backoffGo_firstError action e k m d 0 0 0 hk
    (fun j hj => by simpa using hfalse j hj)
    (by simpa using herr)]
  simp

/-- C6 (witness): an action returning false once then raising 7: the
failure escapes after 2 of the 3 allowed attempts. -/
theorem waitWithBackoff_propagates_failure_c6_witness :
    waitWithBackoff (fun j => if j == 0 then Except.ok false else Except.error 7) 3 1000 =
      ⟨Except.error 7, 2, 1000⟩ := by
  rw [waitWithBackoff_propagates_failure_c6
    (fun j => if j == 0 then Except.ok false else Except.error 7) 3 1000 1 7 (by decide)
    (fun j hj => by
      have hj0 : j = 0 := by omega
      subst hj0
      rfl)
    rfl]
  simp

/-- C7 (counterexample): a persisted "tasks" value that is present but is
the empty string — malformed, since `JSON.parse("")` raises — is silently
decoded as the empty collection by `getStoredTasks` (JS truthiness sends
the empty string down the `[]` branch), instead of propagating the parse
failure as the claim states; so the empty collection is not returned only
when the key is absent. -/
theorem getStoredTasks_c7_counterexample :
    getStoredTasksRaw failingParse (some "") = Except.ok [] ∧
    failingParse "" = Except.error 0 :=
  ⟨rfl, rfl⟩

/-- C7 (amended): `getStoredTasks` returns the empty collection when the
"tasks" key is absent and also when its value is the empty string; for a
non-empty stored value it applies `JSON.parse`, propagating a parse
failure (and returning the decoded collection on success). -/
theorem getStoredTasks_amended_c7 {E : Type} (parse : String → Except E (List Task)) :
    getStoredTasksRaw parse none = Except.ok [] ∧
    getStoredTasksRaw parse (some "") = Except.ok [] ∧
    (∀ s e, s ≠ "" → parse s = Except.error e →
      getStoredTasksRaw parse (some s) = Except.error e) ∧
    (∀ s r, s ≠ "" → parse s = Except.ok r →
      getStoredTasksRaw parse (some s) = Except.ok r) := by
  refine ⟨rfl, rfl, ?_, ?_⟩
  · intro s e hs hp
    simp [getStoredTasksRaw, hs, hp]
  · intro s r hs hp
    simp [getStoredTasksRaw, hs, hp]

/-- C7 (witness): the amended behavior at concrete inputs — absent key
gives the empty collection, and a non-empty malformed value "x" makes the
parse failure propagate. -/
theorem getStoredTasks_amended_c7_witness :
    getStoredTasksRaw failingParse none = Except.ok [] ∧
    getStoredTasksRaw failingParse (some "x") = Except.error 0 :=
  ⟨(getStoredTasks_amended_c7 failingParse).1,
   (getStoredTasks_amended_c7 failingParse).2.2.1 "x" 0 (by decide) rfl⟩

/-- C8: for every prior storage state, `resetState()` — which clears both
persistent and session storage and reloads — followed by
`getStoredTasks()` yields the empty collection, for any decoder: after the
clear the "tasks" key is absent. -/
theorem resetState_then_empty_c8 {E : Type} (parse : String → Except E (List Task))
    (prior : AppStorageState) :
    getStoredTasks parse (resetState prior) = Except.ok [] := rfl

/-- C3 (counterexample): with two displayed cards both titled "Task A",
the locator of `getTaskByTitle("Task A")` resolves to both cards, so the
strict button click of `deleteTask` / `editTask` / `toggleTaskCompletion`
raises a strict-mode ambiguity failure instead of acting on the first
matching card as the claim states; in particular deleting by a duplicated
title errors out rather than leaving exactly one such task. -/
theorem clickByTitle_c3_counterexample :
    resolveTaskByTitle [cardA1, cardA2] "Task A" = [0, 1] ∧
    clickCardButton [cardA1, cardA2] "Task A" = ClickOutcome.strictModeViolation 2 := by
  constructor <;> decide

/-- C3 (amended): the title-locating operations of the page object resolve
every displayed card whose rendered title matches; they act on the card
only when it is the unique match, raise a strict-mode violation when two or
more displayed cards share the matching title (first match does not win),
and time out when no card matches. -/
theorem clickByTitle_amended_c3 (cards : List TaskCard) (taskTitle : String) :
    (∀ i, resolveTaskByTitle cards taskTitle = [i] →
      clickCardButton cards taskTitle = ClickOutcome.acted i) ∧
    (2 ≤ (resolveTaskByTitle cards taskTitle).length →
      clickCardButton cards taskTitle =
        ClickOutcome.strictModeViolation (resolveTaskByTitle cards taskTitle).length) ∧
    (resolveTaskByTitle cards taskTitle = [] →
      clickCardButton cards taskTitle = ClickOutcome.timedOut) := by
  refine ⟨?_, ?_, ?_⟩
  · intro i h
    unfold clickCardButton
    rw [h]
  · intro h2
    unfold clickCardButton
    match hr : resolveTaskByTitle cards taskTitle with
    | [] =>
      rw [hr] at h2
      simp at h2
    | [i] =>
      rw [hr] at h2
      simp at h2
    | a :: b :: rest =>
      rfl
  · intro h
    unfold clickCardButton
    rw [h]

/-- C3 (amended, witness): a uniquely-titled card is acted on, and a title
matching no card times out. -/
theorem clickByTitle_amended_c3_witness :
    clickCardButton [cardB] "Task B" = ClickOutcome.acted 0 ∧
    clickCardButton [cardB] "Task X" = ClickOutcome.timedOut :=
  ⟨(clickByTitle_amended_c3 [cardB] "Task B").1 0 (by decide),
   (clickByTitle_amended_c3 [cardB] "Task X").2.2 (by decide)⟩

/-- C9: `editTask(oldTitle, newTask)` writes only the fields present in
`newTask` into the edit form before saving — each of title, description,
importance and label that is absent from `newTask` leaves the form control
untouched, so the card's value for that field is unchanged by the edit
(the completion flag is never part of the form and is always unchanged). -/
theorem editTask_frame_c9 (card : TaskCard) (newTask : PartialTask) :
    (newTask.title = none → (editTaskOnCard card newTask).title = card.title) ∧
    (newTask.description = none →
      (editTaskOnCard card newTask).description = card.description) ∧
    (newTask.importance = none →
      (editTaskOnCard card newTask).importance = card.importance) ∧
    (newTask.label = none → (editTaskOnCard card newTask).label = card.label) ∧
    (editTaskOnCard card newTask).completed = card.completed := by
  refine ⟨?_, ?_, ?_, ?_, rfl⟩ <;> intro h <;>
    simp [editTaskOnCard, saveEditForm, fillEditForm, openEditForm, h]

/-- C9 (witness): editing a concrete card with an empty partial task
changes none of its fields. -/
theorem editTask_frame_c9_witness :
    (editTaskOnCard cardB {}).title = cardB.title ∧
    (editTaskOnCard cardB {}).description = cardB.description ∧
    (editTaskOnCard cardB {}).importance = cardB.importance ∧
    (editTaskOnCard cardB {}).label = cardB.label ∧
    (editTaskOnCard cardB {}).completed = cardB.completed :=
  ⟨(editTask_frame_c9 cardB {}).1 rfl,
   (editTask_frame_c9 cardB {}).2.1 rfl,
   (editTask_frame_c9 cardB {}).2.2.1 rfl,
   (editTask_frame_c9 cardB {}).2.2.2.1 rfl,
   (editTask_frame_c9 cardB {}).2.2.2.2⟩

/-- C10: every field of `createValidTask(o)` is o's value when the field
is present in o and the fixed default — title "Test Task", description
"Test description", importance Medium, label Work, completed false —
otherwise; and the overrides are not validated: overriding the title with
the empty string or a lowercase title yields a task that `validateTask`
rejects, despite the function's name. -/
theorem createValidTask_c10 (o : PartialTask) :
    (createValidTask o).title = o.title.getD "Test Task" ∧
    (createValidTask o).description = some (o.description.getD "Test description") ∧
    (createValidTask o).importance = some (o.importance.getD "Medium") ∧
    (createValidTask o).label = some (o.label.getD "Work") ∧
    (createValidTask o).completed = some (o.completed.getD false) ∧
    (validateTask (createValidTask { title := some "" })).valid = false ∧
    (validateTask (createValidTask { title := some "lowercase title" })).valid = false :=
  ⟨rfl, rfl, rfl, rfl, rfl, by decide, by decide⟩

end TaskQA
